import Mathlib

/-!
Verification of the Multisig Transaction Orchestration subsystem of
shazow/safe-cli.

The repository provides the command-dispatching layer
(safe_cli/prompt_parser.py) and the integration tests
(tests/test_safe_cli.py, tests/safe_cli_test_case_mixin.py). The
orchestration core (safe_cli/safe_operator.py) is imported by those files
but its source is not part of this tree, so the definitions that embed it
are modelled from the specification, as marked in their doc comments; the
command-dispatching layer and the error boundary are embedded directly
from prompt_parser.py.

Addresses and byte strings are modelled as natural numbers and lists of
natural numbers (each entry a byte value).
-/

abbrev Address := Nat

abbrev Bytes := List Nat

/-- The error kinds of the orchestration layer.  The first sixteen
constructors correspond to the exception classes imported and caught by
`safe_exception` in safe_cli/prompt_parser.py (BaseAPIException,
AccountNotLoadedException, NotEnoughSignatures, SenderRequiredException,
ExistingOwnerException, NonExistingOwnerException, HashAlreadyApproved,
ThresholdLimitException, SameFallbackHandlerException,
FallbackHandlerNotSupportedException, SameMasterCopyException,
InvalidMasterCopyException, SafeAlreadyUpdatedException,
NotEnoughEtherToSend, NotEnoughTokenToSend, ServiceNotAvailable), each
carrying the context values the code reads from the exception arguments;
AccountNotLoadedException realizes the UnknownIdentityError of the
taxonomy. The last three constructors are modelled from the error
taxonomy of the spec (NetworkError, IntegrityFault, IdentityLoadError):
they name error kinds with no corresponding exception class in the catch
list of the dispatcher. -/
inductive SafeError where
  | baseAPI (msg : Option String)
  | accountNotLoaded (addr : Address)
  | notEnoughSignatures (missing : Nat)
  | senderRequired
  | existingOwner (addr : Address)
  | nonExistingOwner (addr : Address)
  | hashAlreadyApproved (hash : Bytes) (owner : Address)
  | thresholdLimit
  | sameFallbackHandler (addr : Address)
  | fallbackHandlerNotSupported
  | sameMasterCopy (addr : Address)
  | invalidMasterCopy (addr : Address)
  | safeAlreadyUpdated
  | notEnoughEtherToSend (balance : Nat)
  | notEnoughTokenToSend (balance : Nat)
  | serviceNotAvailable (network : String)
  | networkError (msg : String)
  | integrityFault
  | identityLoad (material : Bytes)
  deriving Repr, DecidableEq

/-- Modelled from the spec: AccountConfig, the Safe state snapshot kept by
the orchestration core (safe_operator.py, not under src/): its address,
threshold, ordered owner list, nonce, fallback handler, master copy and
version identifier (versions numbered so that fallback handlers are
supported from version 1 on). -/
structure AccountConfig where
  address : Address
  threshold : Nat
  owners : List Address
  nonce : Nat
  fallbackHandler : Address
  masterCopy : Address
  version : Nat
  deriving Repr, DecidableEq

/-- Modelled from the spec: a SignatureSet is a mapping from signer address
to signature bytes, represented as an association list; no two entries
share an address, and the canonical materialized form is sorted by
ascending signer address. -/
abbrev SignatureSet := List (Address × Bytes)

/-- Lookup of the signature bytes recorded for an address (first match). -/
def findSig (a : Address) : SignatureSet → Option Bytes
  | [] => none
  | e :: rest => if e.1 = a then some e.2 else findSig a rest

/-- Sorted insertion keyed by address; an entry whose address is already
present is discarded (the existing signature is kept). -/
def insertSig (e : Address × Bytes) : SignatureSet → SignatureSet
  | [] => [e]
  | f :: rest =>
    if e.1 < f.1 then e :: f :: rest
    else if e.1 = f.1 then f :: rest
    else f :: insertSig e rest

/-- Strictly ascending address order: the canonical on-chain ordering the
verifying contract requires. -/
def SortedKeys (s : SignatureSet) : Prop :=
  List.Pairwise (fun a b => a.1 < b.1) s

instance (s : SignatureSet) : Decidable (SortedKeys s) :=
  inferInstanceAs (Decidable (List.Pairwise _ s))

/-- Modelled from the spec: materialization of a SignatureSet into its
canonical on-chain submission form, sorting entries in ascending signer
address order and keeping at most one entry per address (earlier entries
win). -/
def materializeSigs (l : SignatureSet) : SignatureSet :=
  l.foldl (fun acc e => insertSig e acc) []

/-- Two signature sets conflict when some address is mapped to different
signature bytes in both. -/
def conflicting (s1 s2 : SignatureSet) : Bool :=
  s1.any (fun e1 => s2.any (fun e2 => e1.1 == e2.1 && !(e1.2 == e2.2)))

/-- Modelled from the spec: merge of two independently produced
SignatureSets for the same payload hash — union by address; a conflicting
pair (same address, different bytes) is a fatal integrity fault. -/
def merge (s1 s2 : SignatureSet) : Except SafeError SignatureSet :=
  if conflicting s1 s2 then .error .integrityFault
  else .ok (materializeSigs (s1 ++ s2))

/-- Modelled from the spec: signature production is a deterministic
function of the signing key (identified by its derived address) and the
payload hash — same key, same hash give the same bytes. -/
def signBytes (addr : Address) (hash : Bytes) : Bytes :=
  addr :: hash

/-- Modelled from the spec: the Signature Collector. For each available
identity that is an owner and not already present in the accumulated set,
produce a signature over the payload hash and insert it keyed by address;
an identity already present is a no-op. -/
def collectSign (hash : Bytes) (owners : List Address)
    (identities : List Address) (existing : SignatureSet) : SignatureSet :=
  identities.foldl
    (fun acc a =>
      if a ∈ owners then
        if (findSig a acc).isSome then acc
        else insertSig (a, signBytes a hash) acc
      else acc)
    existing

/-- Modelled from the spec: the Threshold Evaluator counts the submission by the sender as one implicit approval when the sender is an owner whose
address is not already a key of the signature set. -/
def senderBonus (sigs : SignatureSet) (cfg : AccountConfig)
    (sender : Address) : Nat :=
  if sender ∈ cfg.owners ∧ findSig sender sigs = none then 1 else 0

/-- Modelled from the spec: sufficiency of a signature set — the number of
collected signatures plus the implicit approval of the sender must reach the
account threshold. -/
def is_sufficient (sigs : SignatureSet) (cfg : AccountConfig)
    (sender : Address) : Bool :=
  decide (cfg.threshold ≤ sigs.length + senderBonus sigs cfg sender)

/-- Modelled from the spec: the shortfall reported by
NotEnoughSignaturesError — how many further signatures the set is missing. -/
def signatureShortfall (sigs : SignatureSet) (cfg : AccountConfig)
    (sender : Address) : Nat :=
  cfg.threshold - (sigs.length + senderBonus sigs cfg sender)

/-- Native-currency balances of the chain, as an association list from
address to balance (absent addresses hold 0). -/
structure ChainState where
  balances : List (Address × Nat)
  deriving Repr, DecidableEq

def getBalance (st : ChainState) (a : Address) : Nat :=
  match st.balances.lookup a with
  | some v => v
  | none => 0

def setBalance (st : ChainState) (a : Address) (v : Nat) : ChainState :=
  ⟨(a, v) :: st.balances.filter (fun p => p.1 ≠ a)⟩

/-- Move native value from one address to another. -/
def transferValue (st : ChainState) (src dst : Address) (value : Nat) :
    ChainState :=
  let st1 := setBalance st src (getBalance st src - value)
  setBalance st1 dst (getBalance st1 dst + value)

/-- Modelled from the spec: a CanonicalPayload — the deterministic tuple
signatures are produced over (destination, value, data, operation kind,
gas fields, refund receiver, nonce). Operation kind 0 is CALL and 1 is
DELEGATECALL. -/
structure CanonicalPayload where
  dest : Address
  value : Nat
  data : Bytes
  operation : Nat
  safeTxGas : Nat
  baseGas : Nat
  gasPrice : Nat
  gasToken : Address
  refundReceiver : Address
  nonce : Nat
  deriving Repr, DecidableEq

/-- Big-endian byte serialization of a natural number on a fixed width. -/
def natToBytesBE : Nat → Nat → Bytes
  | 0, _ => []
  | w + 1, n => natToBytesBE w (n / 256) ++ [n % 256]

/-- The 4-byte method selector of changeThreshold(uint256), 0x694e80c3, as
witnessed by the expected encoding in tests/test_safe_cli.py. -/
def changeThresholdSelector : Bytes := [105, 78, 128, 195]

/-- 32-byte big-endian ABI encoding of an unsigned 256-bit integer. -/
def abiEncodeUint256 (n : Nat) : Bytes :=
  natToBytesBE 32 (n % 2 ^ 256)

/-- Modelled from the spec: the closed set of intended operations the
Transaction Encoder accepts, restricted to the variants exercised by the
claims (native transfer, raw call, change threshold). -/
inductive Intent where
  | transferNative (dest : Address) (value : Nat)
  | rawCall (dest : Address) (value : Nat) (data : Bytes) (delegate : Bool)
  | changeThreshold (t : Nat)
  deriving Repr, DecidableEq

/-- Modelled from the spec: the Transaction Encoder — a pure function from
an intent and the account state snapshot to the canonical payload. A
change-threshold intent is a zero-value self-call whose data is the fixed
method selector followed by the ABI-encoded new threshold; the nonce
defaults to the nonce of the snapshot. -/
def encode (i : Intent) (cfg : AccountConfig) : CanonicalPayload :=
  match i with
  | .transferNative dest value =>
    ⟨dest, value, [], 0, 0, 0, 0, 0, 0, cfg.nonce⟩
  | .rawCall dest value data delegate =>
    ⟨dest, value, data, if delegate then 1 else 0, 0, 0, 0, 0, 0, cfg.nonce⟩
  | .changeThreshold t =>
    ⟨cfg.address, 0, changeThresholdSelector ++ abiEncodeUint256 t,
      0, 0, 0, 0, 0, 0, cfg.nonce⟩

/-- Modelled from the spec: the content hash of a CanonicalPayload is a
deterministic digest of its canonical serialization; keccak itself is out
of scope, so the digest is the serialization of all payload fields. -/
def contentHash (p : CanonicalPayload) : Bytes :=
  abiEncodeUint256 p.dest ++ abiEncodeUint256 p.value ++ p.data ++
    [p.operation, p.safeTxGas, p.baseGas, p.gasPrice, p.gasToken,
      p.refundReceiver, p.nonce]

/-- Modelled from the spec: the BLOCKCHAIN path of the Submission Router —
requires sufficiency, reports the shortfall via NotEnoughSignaturesError
otherwise, checks the account balance against the payload value, and on
success moves the value from the Safe to the payload destination. -/
def submit_blockchain (st : ChainState) (p : CanonicalPayload)
    (sigs : SignatureSet) (cfg : AccountConfig) (sender : Address) :
    Except SafeError ChainState :=
  if is_sufficient sigs cfg sender then
    if getBalance st cfg.address < p.value then
      .error (.notEnoughEtherToSend (getBalance st cfg.address))
    else .ok (transferValue st cfg.address p.dest p.value)
  else .error (.notEnoughSignatures (signatureShortfall sigs cfg sender))

/-- Run a blockchain submission: an error leaves the chain state
untouched. -/
def runSubmit (st : ChainState) (p : CanonicalPayload)
    (sigs : SignatureSet) (cfg : AccountConfig) (sender : Address) :
    ChainState × Option SafeError :=
  match submit_blockchain st p sigs cfg sender with
  | .ok st1 => (st1, none)
  | .error e => (st, some e)

/-- Modelled from the spec: the on-chain hash-approval registry — the set
of (owner, payload hash) pairs approved so far. -/
structure ApprovalState where
  approved : List (Address × Bytes)
  deriving Repr, DecidableEq

def is_hash_pre_approved (st : ApprovalState) (owner : Address)
    (hash : Bytes) : Bool :=
  st.approved.contains (owner, hash)

/-- Modelled from the spec: approve-hash — an owner may approve a payload
hash once; a repeated approval of the same hash by the same owner fails
with HashAlreadyApprovedError, and approvals are never removed. -/
def approve_hash (st : ApprovalState) (owner : Address) (hash : Bytes) :
    Except SafeError ApprovalState :=
  if is_hash_pre_approved st owner hash then
    .error (.hashAlreadyApproved hash owner)
  else .ok ⟨(owner, hash) :: st.approved⟩

/-- Modelled from the spec: the Signer Registry — the set of loaded signer
identities (by address) and the optional default sender. -/
structure SignerRegistry where
  accounts : List Address
  default_sender : Option Address
  deriving Repr, DecidableEq

/-- Modelled from the spec: loading one identity into the registry. The
identity is added to the loaded set; it becomes the default sender exactly
when no default sender is set and its account balance is non-zero. -/
def load_cli_owner (reg : SignerRegistry) (addr : Address)
    (balance : Nat) : SignerRegistry :=
  { accounts := if addr ∈ reg.accounts then reg.accounts
                else addr :: reg.accounts
    default_sender :=
      match reg.default_sender with
      | some s => some s
      | none => if balance ≠ 0 then some addr else none }

/-- Modelled from the spec: resolving the sender for an operation that
needs one — fails with SenderRequiredError when no default sender is set,
never silently picking a loaded identity. -/
def require_sender (reg : SignerRegistry) : Except SafeError Address :=
  match reg.default_sender with
  | some s => .ok s
  | none => .error .senderRequired

/-- Modelled from the spec: unloading one identity from the registry —
the identity is removed from the loaded set; if it was the default
sender, the default sender becomes undefined. -/
def unload_cli_owner (reg : SignerRegistry) (addr : Address) :
    SignerRegistry :=
  { accounts := reg.accounts.filter (fun a => a ≠ addr)
    default_sender :=
      if reg.default_sender = some addr then none
      else reg.default_sender }

/-- Modelled from the spec: identity derivation — a signer address is
deterministically derived from 32-byte raw key material; malformed
material (wrong length) yields no identity and is an IdentityLoadError. -/
def deriveAddress (key : Bytes) : Option Address :=
  if key.length = 32 then some (key.foldl (fun acc b => acc * 256 + b) 0)
  else none

/-- Modelled from the spec: the static chain environment the validators
consult — the set of supported master-copy addresses and the identifier
of the latest account version. -/
structure ChainEnv where
  validMasterCopies : List Address
  lastVersion : Nat
  deriving Repr, DecidableEq

/-- A world: the on-chain account snapshot, the chain balances, the local
signer registry and a count of network calls performed, used to express
that validation errors are raised before any network traffic. -/
structure World where
  cfg : AccountConfig
  chain : ChainState
  registry : SignerRegistry
  netCalls : Nat
  deriving Repr, DecidableEq

/-- Modelled from the spec: validation of an add-owner intent — an address
already in the owner set is an ExistingOwnerError, and a resulting
threshold outside 1 ≤ t ≤ owners+1 is a ThresholdLimitError; both are
detected on the local snapshot, before any network call. -/
def validate_add_owner (cfg : AccountConfig) (addr : Address)
    (newThreshold : Option Nat) : Option SafeError :=
  if addr ∈ cfg.owners then some (.existingOwner addr)
  else
    let t := newThreshold.getD cfg.threshold
    if t < 1 ∨ cfg.owners.length + 1 < t then some .thresholdLimit
    else none

/-- Modelled from the spec: validation of a remove-owner intent — removing
a non-owner is a NonExistingOwnerError, and a threshold left above the
remaining owner count (or below 1) is a ThresholdLimitError. -/
def validate_remove_owner (cfg : AccountConfig) (addr : Address)
    (newThreshold : Option Nat) : Option SafeError :=
  if addr ∉ cfg.owners then some (.nonExistingOwner addr)
  else
    let t := newThreshold.getD cfg.threshold
    if t < 1 ∨ cfg.owners.length - 1 < t then some .thresholdLimit
    else none

/-- Modelled from the spec: validation of a change-threshold intent — a
threshold below 1 or above the owner count is a ThresholdLimitError. -/
def validate_change_threshold (cfg : AccountConfig) (t : Nat) :
    Option SafeError :=
  if t < 1 ∨ cfg.owners.length < t then some .thresholdLimit
  else none

/-- Modelled from the spec: validation of a change-fallback-handler
intent — an account version that does not support fallback handlers
(below version 1) is a FallbackHandlerNotSupportedError, and setting the
handler already in place is a SameFallbackHandlerError. -/
def validate_change_fallback_handler (cfg : AccountConfig)
    (addr : Address) : Option SafeError :=
  if cfg.version < 1 then some .fallbackHandlerNotSupported
  else if addr = cfg.fallbackHandler then some (.sameFallbackHandler addr)
  else none

/-- Modelled from the spec: validation of a change-master-copy intent —
setting the master copy already in place is a SameMasterCopyError, and an
unsupported or unknown master copy is an InvalidMasterCopyError. -/
def validate_change_master_copy (env : ChainEnv) (cfg : AccountConfig)
    (addr : Address) : Option SafeError :=
  if addr = cfg.masterCopy then some (.sameMasterCopy addr)
  else if addr ∉ env.validMasterCopies then some (.invalidMasterCopy addr)
  else none

/-- Modelled from the spec: validation of an update-version intent —
updating an account already at the latest version is a
SafeAlreadyUpdatedError. -/
def validate_update_version (env : ChainEnv) (cfg : AccountConfig) :
    Option SafeError :=
  if env.lastVersion ≤ cfg.version then some .safeAlreadyUpdated
  else none

/-- The closed set of commands whose validation errors the spec lists:
identity loading and unloading, owner and threshold mutations, and the
fallback-handler, master-copy and update encoding preconditions. -/
inductive Command where
  | loadOwner (key : Bytes)
  | unloadOwner (addr : Address)
  | addOwner (addr : Address) (newThreshold : Option Nat)
  | removeOwner (addr : Address) (newThreshold : Option Nat)
  | changeThreshold (t : Nat)
  | changeFallbackHandler (addr : Address)
  | changeMasterCopy (addr : Address)
  | updateVersion
  deriving Repr, DecidableEq

/-- Modelled from the spec: one orchestration command — validation runs
first on the local snapshot and registry; a validation error is returned
with the world untouched (no network call), otherwise the operation
proceeds (a network call is counted, and for mutating intents the
on-chain snapshot changes). -/
def runCommand (env : ChainEnv) (w : World) :
    Command → World × Option SafeError
  | .loadOwner key =>
    match deriveAddress key with
    | none => (w, some (.identityLoad key))
    | some addr =>
      ({ w with
          registry :=
            load_cli_owner w.registry addr (getBalance w.chain addr)
          netCalls := w.netCalls + 1 }, none)
  | .unloadOwner addr =>
    if addr ∈ w.registry.accounts then
      ({ w with registry := unload_cli_owner w.registry addr }, none)
    else (w, some (.accountNotLoaded addr))
  | .addOwner addr t =>
    match validate_add_owner w.cfg addr t with
    | some e => (w, some e)
    | none =>
      ({ w with
          cfg := { w.cfg with
                    owners := w.cfg.owners ++ [addr]
                    threshold := t.getD w.cfg.threshold
                    nonce := w.cfg.nonce + 1 }
          netCalls := w.netCalls + 1 }, none)
  | .removeOwner addr t =>
    match validate_remove_owner w.cfg addr t with
    | some e => (w, some e)
    | none =>
      ({ w with
          cfg := { w.cfg with
                    owners := w.cfg.owners.filter (fun o => o ≠ addr)
                    threshold := t.getD w.cfg.threshold
                    nonce := w.cfg.nonce + 1 }
          netCalls := w.netCalls + 1 }, none)
  | .changeThreshold t =>
    match validate_change_threshold w.cfg t with
    | some e => (w, some e)
    | none =>
      ({ w with
          cfg := { w.cfg with threshold := t, nonce := w.cfg.nonce + 1 }
          netCalls := w.netCalls + 1 }, none)
  | .changeFallbackHandler addr =>
    match validate_change_fallback_handler w.cfg addr with
    | some e => (w, some e)
    | none =>
      ({ w with
          cfg := { w.cfg with
                    fallbackHandler := addr
                    nonce := w.cfg.nonce + 1 }
          netCalls := w.netCalls + 1 }, none)
  | .changeMasterCopy addr =>
    match validate_change_master_copy env w.cfg addr with
    | some e => (w, some e)
    | none =>
      ({ w with
          cfg := { w.cfg with
                    masterCopy := addr
                    nonce := w.cfg.nonce + 1 }
          netCalls := w.netCalls + 1 }, none)
  | .updateVersion =>
    match validate_update_version env w.cfg with
    | some e => (w, some e)
    | none =>
      ({ w with
          cfg := { w.cfg with
                    version := env.lastVersion
                    nonce := w.cfg.nonce + 1 }
          netCalls := w.netCalls + 1 }, none)

/-- A sample environment for the concrete validation-error instances:
master copies 6 and 7 are supported, the latest version is 2. -/
def demoEnv : ChainEnv := ⟨[6, 7], 2⟩

/-- A sample world: a Safe at address 4 with owners 1 and 2, threshold 2,
fallback handler 5, master copy 6, version 1, an empty chain and an empty
registry. -/
def demoWorld : World := ⟨⟨4, 2, [1, 2], 0, 5, 6, 1⟩, ⟨[]⟩, ⟨[], none⟩, 0⟩

/-- The sample world at account version 0, which does not support
fallback handlers. -/
def demoWorldV0 : World :=
  ⟨⟨4, 2, [1, 2], 0, 5, 6, 0⟩, ⟨[]⟩, ⟨[], none⟩, 0⟩

/-- The rendering of each error kind caught by the error boundary of the dispatcher, embedded from the except clauses of safe_exception in
safe_cli/prompt_parser.py: some lines for a caught kind (an API exception
with no message is caught but prints nothing), none for an exception class
with no matching clause. -/
def renderError : SafeError → Option (List String)
  | .baseAPI msg =>
    some (match msg with | some m => [m] | none => [])
  | .accountNotLoaded addr =>
    some ["Account " ++ toString addr ++ " is not loaded"]
  | .notEnoughSignatures missing =>
    some ["Cannot find enough owners to sign. " ++ toString missing ++
      " missing"]
  | .senderRequired => some ["Please load a default sender"]
  | .existingOwner addr =>
    some ["Owner " ++ toString addr ++ " is already an owner of the Safe"]
  | .nonExistingOwner addr =>
    some ["Owner " ++ toString addr ++ " is not an owner of the Safe"]
  | .hashAlreadyApproved hash owner =>
    some ["Transaction with safe-tx-hash " ++ toString hash ++
      " has already been approved by owner " ++ toString owner]
  | .thresholdLimit =>
    some ["Having less owners than threshold is not allowed"]
  | .sameFallbackHandler addr =>
    some ["Fallback handler " ++ toString addr ++ " is the current one"]
  | .fallbackHandlerNotSupported =>
    some ["Fallback handler is not supported for your Safe, " ++
      "you need to update first"]
  | .sameMasterCopy addr =>
    some ["Master Copy " ++ toString addr ++ " is the current one"]
  | .invalidMasterCopy addr =>
    some ["Master Copy " ++ toString addr ++ " is not valid"]
  | .safeAlreadyUpdated => some ["Safe is already updated"]
  | .notEnoughEtherToSend balance =>
    some ["Cannot find enough to send. Current balance is " ++
      toString balance]
  | .notEnoughTokenToSend balance =>
    some ["Cannot find enough to send. Current balance is " ++
      toString balance]
  | .serviceNotAvailable network =>
    some ["Service not available for network " ++ network]
  | .networkError _ => none
  | .integrityFault => none
  | .identityLoad _ => none

/-- Whether the error boundary has a matching except clause for an error
kind. -/
def catchableError (e : SafeError) : Bool :=
  (renderError e).isSome

/-- The error boundary of safe_cli/prompt_parser.py (safe_exception): the
outcome of the wrapped handler is returned on success; a caught exception is
rendered and swallowed (the wrapper returns None); any other exception
propagates out of the wrapper and hence out of process_command. -/
def safe_exception {α : Type} (r : Except SafeError α) :
    Except SafeError (Option α × List String) :=
  match r with
  | .ok a => .ok (some a, [])
  | .error e =>
    match renderError e with
    | some lines => .ok (none, lines)
    | none => .error e

/-- The destination enumeration of the orchestration core, imported by
safe_cli/prompt_parser.py. -/
inductive TransactionDestination where
  | blockchain
  | relay_service
  | transaction_service
  deriving Repr, DecidableEq

/-- The flag arguments of the send commands (tx-service and relay-service
store_true flags of prompt_parser.py). -/
structure SendArgs where
  tx_service : Bool
  relay_service : Bool
  deriving Repr, DecidableEq

/-- Embedded from safe_cli/prompt_parser.py, function
_parser_to_transaction_destination. -/
def parser_to_transaction_destination (args : SendArgs) :
    TransactionDestination :=
  if args.tx_service then .transaction_service
  else if args.relay_service then .relay_service
  else .blockchain

/-- Left-biased choice on options, the lookup semantics of a union of two
signature sets. -/
def orO {α : Type} : Option α → Option α → Option α
  | some a, _ => some a
  | none, b => b

/-- The test scenario of tests/test_safe_cli.py (happy path): a Safe at
address 4 with owners 1 and 2, threshold 2, nonce 0. -/
def scenarioCfg : AccountConfig := ⟨4, 2, [1, 2], 0, 0, 6, 1⟩

/-- The scenario chain state: the Safe (address 4) funded with 1 unit;
the recipient (address 3) holds nothing. -/
def scenarioState : ChainState := ⟨[(4, 1)]⟩

/-- The scenario payload: a native transfer of value 1 to address 3. -/
def scenarioPayload : CanonicalPayload :=
  encode (.transferNative 3 1) scenarioCfg

/-- The signature set holding only the signature of owner 1 over the scenario
payload hash. -/
def scenarioSigsA : SignatureSet :=
  collectSign (contentHash scenarioPayload) scenarioCfg.owners [1] []

/-- The scenario signature set after owner 2 also signs. -/
def scenarioSigsAB : SignatureSet :=
  collectSign (contentHash scenarioPayload) scenarioCfg.owners [2]
    scenarioSigsA

theorem orO_none_right {α : Type} (x : Option α) : orO x none = x := by
  cases x <;> rfl

theorem mem_insertSig (e : Address × Bytes) :
    ∀ (s : SignatureSet) (p : Address × Bytes),
      p ∈ insertSig e s → p = e ∨ p ∈ s := by
  intro s
  induction s with
  | nil =>
    intro p hp
    simp only [insertSig, List.mem_singleton] at hp
    exact Or.inl hp
  | cons f rest ih =>
    intro p hp
    simp only [insertSig] at hp
    split at hp
    · rcases List.mem_cons.mp hp with h | h
      · exact Or.inl h
      · exact Or.inr h
    · split at hp
      · exact Or.inr hp
      · rcases List.mem_cons.mp hp with h | h
        · exact Or.inr (List.mem_cons.mpr (Or.inl h))
        · rcases ih p h with h2 | h2
          · exact Or.inl h2
          · exact Or.inr (List.mem_cons.mpr (Or.inr h2))

theorem sortedKeys_insertSig (e : Address × Bytes) :
    ∀ (s : SignatureSet), SortedKeys s → SortedKeys (insertSig e s) := by
  intro s
  induction s with
  | nil =>
    intro _
    simp [insertSig, SortedKeys]
  | cons f rest ih =>
    intro hs
    simp only [SortedKeys, List.pairwise_cons] at hs
    obtain ⟨hf, hrest⟩ := hs
    simp only [insertSig]
    split
    · rename_i h1
      simp only [SortedKeys, List.pairwise_cons]
      refine ⟨?_, hf, hrest⟩
      intro p hp
      rcases List.mem_cons.mp hp with h | h
      · rw [h]; exact h1
      · exact lt_trans h1 (hf p h)
    · split
      · simp only [SortedKeys, List.pairwise_cons]
        exact ⟨hf, hrest⟩
      · rename_i h1 h2
        simp only [SortedKeys, List.pairwise_cons]
        refine ⟨?_, ?_⟩
        · intro p hp
          rcases mem_insertSig e rest p hp with h | h
          · rw [h]
            exact Nat.lt_of_le_of_ne (Nat.le_of_not_lt h1)
              (fun hh => h2 hh.symm)
          · exact hf p h
        · have := ih hrest
          simpa [SortedKeys] using this

theorem findSig_eq_none (a : Address) :
    ∀ (s : SignatureSet), (∀ p ∈ s, p.1 ≠ a) → findSig a s = none := by
  intro s
  induction s with
  | nil => intro _; rfl
  | cons f rest ih =>
    intro h
    simp only [findSig]
    rw [if_neg (h f (List.mem_cons_self f rest))]
    exact ih (fun p hp => h p (List.mem_cons_of_mem f hp))

theorem findSig_eq_some_mem (a : Address) (b : Bytes) :
    ∀ (s : SignatureSet), findSig a s = some b → (a, b) ∈ s := by
  intro s
  induction s with
  | nil =>
    intro h
    exact Option.noConfusion h
  | cons f rest ih =>
    intro h
    simp only [findSig] at h
    split at h
    · rename_i heq
      have hb : f.2 = b := Option.some.inj h
      have hp : (a, b) = f := by
        obtain ⟨f1, f2⟩ := f
        simp only at heq hb
        rw [heq, hb]
      exact List.mem_cons.mpr (Or.inl hp)
    · exact List.mem_cons.mpr (Or.inr (ih h))

theorem findSig_insertSig (e : Address × Bytes) (a : Address) :
    ∀ (s : SignatureSet), SortedKeys s →
      findSig a (insertSig e s) =
        if findSig e.1 s = none then
          (if a = e.1 then some e.2 else findSig a s)
        else findSig a s := by
  intro s
  induction s with
  | nil =>
    intro _
    by_cases ha : a = e.1
    · subst ha
      simp [insertSig, findSig]
    · have ha2 : ¬ e.1 = a := fun h => ha h.symm
      simp [insertSig, findSig, ha, ha2]
  | cons f rest ih =>
    intro hs
    simp only [SortedKeys, List.pairwise_cons] at hs
    obtain ⟨hf, hrest⟩ := hs
    simp only [insertSig]
    split
    · rename_i h1
      have hnone : findSig e.1 (f :: rest) = none := by
        apply findSig_eq_none
        intro p hp
        rcases List.mem_cons.mp hp with h | h
        · rw [h]
          exact Nat.ne_of_gt h1
        · exact Nat.ne_of_gt (lt_trans h1 (hf p h))
      rw [if_pos hnone]
      simp only [findSig]
      by_cases ha : e.1 = a
      · rw [if_pos ha, if_pos ha.symm]
      · rw [if_neg ha, if_neg (fun h : a = e.1 => ha h.symm)]
    · split
      · rename_i h1 h2
        have hsome : ¬ findSig e.1 (f :: rest) = none := by
          simp only [findSig]
          rw [if_pos h2.symm]
          exact Option.noConfusion
        rw [if_neg hsome]
      · rename_i h1 h2
        have hlt : f.1 < e.1 :=
          Nat.lt_of_le_of_ne (Nat.le_of_not_lt h1) (fun hh => h2 hh.symm)
        have hstep : findSig e.1 (f :: rest) = findSig e.1 rest := by
          simp only [findSig]
          rw [if_neg (Nat.ne_of_lt hlt)]
        rw [hstep]
        simp only [findSig]
        rw [ih hrest]
        by_cases hn : findSig e.1 rest = none
        · rw [if_pos hn, if_pos hn]
          by_cases hfa : f.1 = a
          · by_cases hae : a = e.1
            · exfalso
              rw [hfa, hae] at hlt
              exact lt_irrefl _ hlt
            · rw [if_pos hfa, if_neg hae, if_pos hfa]
          · by_cases hae : a = e.1
            · rw [if_neg hfa, if_pos hae, if_pos hae]
            · rw [if_neg hfa, if_neg hae, if_neg hae, if_neg hfa]
        · rw [if_neg hn, if_neg hn]

theorem sortedKeys_foldl_insert :
    ∀ (l acc : SignatureSet), SortedKeys acc →
      SortedKeys (l.foldl (fun acc e => insertSig e acc) acc) := by
  intro l
  induction l with
  | nil => intro acc h; exact h
  | cons e l ih =>
    intro acc h
    rw [List.foldl_cons]
    exact ih _ (sortedKeys_insertSig e acc h)

theorem sortedKeys_materializeSigs (l : SignatureSet) :
    SortedKeys (materializeSigs l) :=
  sortedKeys_foldl_insert l [] (by simp [SortedKeys])

theorem findSig_foldl_insert (a : Address) :
    ∀ (l acc : SignatureSet), SortedKeys acc →
      findSig a (l.foldl (fun acc e => insertSig e acc) acc) =
        orO (findSig a acc) (findSig a l) := by
  intro l
  induction l with
  | nil =>
    intro acc h
    rw [List.foldl_nil]
    have : findSig a ([] : SignatureSet) = none := rfl
    rw [this, orO_none_right]
  | cons e l ih =>
    intro acc hacc
    rw [List.foldl_cons, ih (insertSig e acc) (sortedKeys_insertSig e acc hacc),
      findSig_insertSig e a acc hacc]
    simp only [findSig]
    by_cases hn : findSig e.1 acc = none
    · rw [if_pos hn]
      by_cases ha : a = e.1
      · subst ha
        rw [if_pos rfl, if_pos rfl, hn]
        rfl
      · rw [if_neg ha, if_neg (fun h : e.1 = a => ha h.symm)]
    · rw [if_neg hn]
      by_cases ha : e.1 = a
      · subst ha
        cases hv : findSig e.1 acc with
        | none => exact absurd hv hn
        | some v =>
          rw [if_pos rfl]
          rfl
      · rw [if_neg ha]

theorem findSig_materializeSigs (a : Address) (l : SignatureSet) :
    findSig a (materializeSigs l) = findSig a l := by
  have h := findSig_foldl_insert a l [] (by simp [SortedKeys])
  rw [materializeSigs, h]
  rfl

theorem findSig_append (a : Address) :
    ∀ (l1 l2 : SignatureSet),
      findSig a (l1 ++ l2) = orO (findSig a l1) (findSig a l2) := by
  intro l1 l2
  induction l1 with
  | nil => rfl
  | cons f rest ih =>
    simp only [List.cons_append, findSig]
    by_cases h : f.1 = a
    · rw [if_pos h, if_pos h]
      rfl
    · rw [if_neg h, if_neg h]
      exact ih

theorem findSig_ne_none_iff (a : Address) :
    ∀ (l : SignatureSet), ¬ findSig a l = none ↔ a ∈ l.map Prod.fst := by
  intro l
  induction l with
  | nil => simp [findSig]
  | cons f rest ih =>
    simp only [findSig, List.map_cons, List.mem_cons]
    by_cases h : f.1 = a
    · rw [if_pos h]
      simp [h]
    · have h2 : ¬ a = f.1 := fun hh => h hh.symm
      rw [if_neg h]
      simp [h2, ih]

theorem sortedKeys_ext :
    ∀ (s t : SignatureSet), SortedKeys s → SortedKeys t →
      (∀ a, findSig a s = findSig a t) → s = t := by
  intro s
  induction s with
  | nil =>
    intro t _ ht hfind
    cases t with
    | nil => rfl
    | cons f t2 =>
      exfalso
      have h := hfind f.1
      simp only [findSig, if_pos rfl] at h
      exact Option.noConfusion h
  | cons e s2 ih =>
    intro t hs ht hfind
    cases t with
    | nil =>
      exfalso
      have h := hfind e.1
      simp only [findSig, if_pos rfl] at h
      exact Option.noConfusion h
    | cons f t2 =>
      simp only [SortedKeys, List.pairwise_cons] at hs ht
      obtain ⟨hes, hs2⟩ := hs
      obtain ⟨hft, ht2⟩ := ht
      have hkey : e.1 = f.1 := by
        rcases lt_trichotomy e.1 f.1 with hlt | heq | hgt
        · exfalso
          have hnone : findSig e.1 (f :: t2) = none := by
            apply findSig_eq_none
            intro p hp
            rcases List.mem_cons.mp hp with h | h
            · rw [h]; exact Nat.ne_of_gt hlt
            · exact Nat.ne_of_gt (lt_trans hlt (hft p h))
          have h := hfind e.1
          rw [hnone] at h
          simp only [findSig, if_pos rfl] at h
          exact Option.noConfusion h
        · exact heq
        · exfalso
          have hnone : findSig f.1 (e :: s2) = none := by
            apply findSig_eq_none
            intro p hp
            rcases List.mem_cons.mp hp with h | h
            · rw [h]; exact Nat.ne_of_gt hgt
            · exact Nat.ne_of_gt (lt_trans hgt (hes p h))
          have h := hfind f.1
          rw [hnone] at h
          simp only [findSig, if_pos rfl] at h
          exact Option.noConfusion h.symm
      have hval : e.2 = f.2 := by
        have h := hfind e.1
        simp only [findSig, if_pos rfl, if_pos hkey.symm] at h
        exact Option.some.inj h
      have hef : e = f := by
        obtain ⟨e1, v1⟩ := e
        obtain ⟨f1, v2⟩ := f
        simp only at hkey hval
        rw [hkey, hval]
      subst hef
      have htails : ∀ a, findSig a s2 = findSig a t2 := by
        intro a
        by_cases ha : e.1 = a
        · subst ha
          rw [findSig_eq_none e.1 s2 (fun p hp => Nat.ne_of_gt (hes p hp)),
            findSig_eq_none e.1 t2 (fun p hp => Nat.ne_of_gt (hft p hp))]
        · have h := hfind a
          simp only [findSig, if_neg ha] at h
          exact h
      rw [ih t2 hs2 ht2 htails]

theorem conflicting_eq_false_iff (s1 s2 : SignatureSet) :
    conflicting s1 s2 = false ↔
      ∀ e1 ∈ s1, ∀ e2 ∈ s2, e1.1 = e2.1 → e1.2 = e2.2 := by
  constructor
  · intro h e1 h1 e2 h2 hkey
    by_contra hne
    have hc : conflicting s1 s2 = true := by
      simp only [conflicting, List.any_eq_true]
      refine ⟨e1, h1, e2, h2, ?_⟩
      simp [hkey, hne]
    rw [h] at hc
    exact Bool.noConfusion hc
  · intro h
    cases hb : conflicting s1 s2 with
    | false => rfl
    | true =>
      exfalso
      simp only [conflicting, List.any_eq_true] at hb
      obtain ⟨e1, h1, e2, h2, hcond⟩ := hb
      simp only [Bool.and_eq_true, beq_iff_eq, Bool.not_eq_true',
        beq_eq_false_iff_ne] at hcond
      exact hcond.2 (h e1 h1 e2 h2 hcond.1)

theorem nodupKeys_of_sortedKeys (s : SignatureSet) (h : SortedKeys s) :
    (s.map Prod.fst).Nodup := by
  simp only [SortedKeys] at h
  exact h.map Prod.fst (fun a b hab => Nat.ne_of_lt hab)

theorem length_materializeSigs_card (l : SignatureSet) :
    (materializeSigs l).length = (l.map Prod.fst).toFinset.card := by
  have hsk := sortedKeys_materializeSigs l
  have hnodup := nodupKeys_of_sortedKeys _ hsk
  have hkeys : ((materializeSigs l).map Prod.fst).toFinset =
      (l.map Prod.fst).toFinset := by
    ext a
    simp only [List.mem_toFinset]
    rw [← findSig_ne_none_iff, ← findSig_ne_none_iff, findSig_materializeSigs]
  rw [← hkeys, List.toFinset_card_of_nodup hnodup, List.length_map]

/-- C3: for signature sets with no conflicting entries, merge is
commutative, succeeds, and the merged size is the cardinality of the union
of the two address key sets. -/
theorem c3_merge_commutative_union_size (s1 s2 : SignatureSet)
    (h : conflicting s1 s2 = false) :
    merge s1 s2 = merge s2 s1 ∧
      merge s1 s2 = .ok (materializeSigs (s1 ++ s2)) ∧
      (materializeSigs (s1 ++ s2)).length =
        ((s1.map Prod.fst).toFinset ∪ (s2.map Prod.fst).toFinset).card := by
  have h2 : conflicting s2 s1 = false := by
    rw [conflicting_eq_false_iff] at h ⊢
    intro e2 h2 e1 h1 hk
    exact (h e1 h1 e2 h2 hk.symm).symm
  have hmat : materializeSigs (s1 ++ s2) = materializeSigs (s2 ++ s1) := by
    apply sortedKeys_ext _ _ (sortedKeys_materializeSigs _)
      (sortedKeys_materializeSigs _)
    intro a
    rw [findSig_materializeSigs, findSig_materializeSigs, findSig_append,
      findSig_append]
    rw [conflicting_eq_false_iff] at h
    cases h1 : findSig a s1 with
    | none =>
      cases h2 : findSig a s2 with
      | none => rfl
      | some b2 => rfl
    | some b1 =>
      cases h2 : findSig a s2 with
      | none => rfl
      | some b2 =>
        have hb : b1 = b2 :=
          h (a, b1) (findSig_eq_some_mem a b1 s1 h1)
            (a, b2) (findSig_eq_some_mem a b2 s2 h2) rfl
        rw [hb]
  refine ⟨?_, ?_, ?_⟩
  · rw [merge, merge, if_neg (by simp [h]), if_neg (by simp [h2]), hmat]
  · rw [merge, if_neg (by simp [h])]
  · rw [length_materializeSigs_card, List.map_append, List.toFinset_append]

theorem c3_merge_commutative_union_size_witness :
    conflicting [(1, [10])] [(2, [20])] = false ∧
      (merge [(1, [10])] [(2, [20])] = merge [(2, [20])] [(1, [10])] ∧
        merge [(1, [10])] [(2, [20])] =
          .ok (materializeSigs ([(1, [10])] ++ [(2, [20])])) ∧
        (materializeSigs ([(1, [10])] ++ [(2, [20])])).length =
          ((([(1, [10])] : SignatureSet).map Prod.fst).toFinset ∪
            (([(2, [20])] : SignatureSet).map Prod.fst).toFinset).card) :=
  ⟨by decide,
    c3_merge_commutative_union_size [(1, [10])] [(2, [20])] (by decide)⟩

/-- C4: every signature set, materialized into its canonical on-chain
submission form, lists its entries in strictly ascending signer address
order and holds at most one entry per signer address, whatever the input
order. -/
theorem c4_materialized_sorted_unique (s : SignatureSet) :
    SortedKeys (materializeSigs s) ∧
      ((materializeSigs s).map Prod.fst).Nodup :=
  ⟨sortedKeys_materializeSigs s,
    nodupKeys_of_sortedKeys _ (sortedKeys_materializeSigs s)⟩

/-- C5: re-signing with an identity whose address is already a key of the
signature set is idempotent — the collector returns the set unchanged and
raises no error. -/
theorem c5_collectSign_idempotent (hash : Bytes) (owners : List Address)
    (a : Address) (s : SignatureSet)
    (h : (findSig a s).isSome = true) :
    collectSign hash owners [a] s = s := by
  simp only [collectSign, List.foldl_cons, List.foldl_nil]
  by_cases ho : a ∈ owners
  · rw [if_pos ho, if_pos h]
  · rw [if_neg ho]

theorem c5_collectSign_idempotent_witness :
    (findSig 5 [(5, [9])]).isSome = true ∧
      collectSign [7] [5] [5] [(5, [9])] = [(5, [9])] :=
  ⟨by decide, c5_collectSign_idempotent [7] [5] 5 [(5, [9])] (by decide)⟩

/-- C1: a signature set is sufficient exactly when it reaches the
threshold, or falls one short of it while the sender is an owner not
already among its keys; in the two-owner threshold-2 scenario, a
BLOCKCHAIN submission carrying only the signature of owner 1, with owner 1 as
sender fails with NotEnoughSignaturesError reporting a shortfall of 1 and
moves nothing, while after owner 2 also signs the same submission
succeeds and the balance of the recipient grows by the transferred value. -/
theorem c1_sufficiency_and_blockchain_scenario :
    (∀ (sigs : SignatureSet) (cfg : AccountConfig) (sender : Address),
      is_sufficient sigs cfg sender = true ↔
        (cfg.threshold ≤ sigs.length ∨
          (cfg.threshold ≤ sigs.length + 1 ∧ sender ∈ cfg.owners ∧
            findSig sender sigs = none)))
    ∧ runSubmit scenarioState scenarioPayload scenarioSigsA scenarioCfg 1 =
        (scenarioState, some (.notEnoughSignatures 1))
    ∧ getBalance scenarioState 3 = 0
    ∧ (runSubmit scenarioState scenarioPayload scenarioSigsAB
        scenarioCfg 1).2 = none
    ∧ getBalance (runSubmit scenarioState scenarioPayload scenarioSigsAB
        scenarioCfg 1).1 3 =
      getBalance scenarioState 3 + 1 := by
  refine ⟨?_, by decide, by decide, by decide, by decide⟩
  intro sigs cfg sender
  simp only [is_sufficient, senderBonus, decide_eq_true_eq]
  by_cases hb : sender ∈ cfg.owners ∧ findSig sender sigs = none
  · rw [if_pos hb]
    constructor
    · intro h
      exact Or.inr ⟨h, hb.1, hb.2⟩
    · intro h
      rcases h with h | ⟨h, _, _⟩
      · omega
      · omega
  · rw [if_neg hb]
    constructor
    · intro h
      exact Or.inl (by omega)
    · intro h
      rcases h with h | ⟨h1, h2, h3⟩
      · omega
      · exact absurd ⟨h2, h3⟩ hb

theorem c1_sufficiency_and_blockchain_scenario_witness :
    is_sufficient [] ⟨4, 1, [1], 0, 0, 6, 1⟩ 1 = true ↔
      (AccountConfig.threshold ⟨4, 1, [1], 0, 0, 6, 1⟩ ≤
          List.length ([] : SignatureSet) ∨
        (AccountConfig.threshold ⟨4, 1, [1], 0, 0, 6, 1⟩ ≤
            List.length ([] : SignatureSet) + 1 ∧
          1 ∈ AccountConfig.owners ⟨4, 1, [1], 0, 0, 6, 1⟩ ∧
          findSig 1 [] = none)) :=
  c1_sufficiency_and_blockchain_scenario.1 [] ⟨4, 1, [1], 0, 0, 6, 1⟩ 1

/-- C2: encode is deterministic — the same intent and the same account
snapshot always give byte-identical payloads and equal content hashes —
and a change-threshold-to-1 intent always encodes to the fixed byte
string 0x694e80c3 followed by the 32-byte big-endian encoding of 1,
whatever account snapshot (hence whatever orchestrator instance) produced
it. -/
theorem c2_encode_deterministic :
    (∀ (i : Intent) (c1 c2 : AccountConfig), c1 = c2 →
      encode i c1 = encode i c2 ∧
        contentHash (encode i c1) = contentHash (encode i c2))
    ∧ (∀ cfg : AccountConfig, (encode (.changeThreshold 1) cfg).data =
        [105, 78, 128, 195, 0, 0, 0, 0, 0, 0, 0, 0, 0, 0, 0, 0, 0, 0, 0,
          0, 0, 0, 0, 0, 0, 0, 0, 0, 0, 0, 0, 0, 0, 0, 0, 1]) := by
  constructor
  · intro i c1 c2 h
    subst h
    exact ⟨rfl, rfl⟩
  · intro cfg
    rfl

theorem c2_encode_deterministic_witness :
    scenarioCfg = scenarioCfg ∧
      (encode (.changeThreshold 1) scenarioCfg =
          encode (.changeThreshold 1) scenarioCfg ∧
        contentHash (encode (.changeThreshold 1) scenarioCfg) =
          contentHash (encode (.changeThreshold 1) scenarioCfg)) :=
  ⟨rfl, c2_encode_deterministic.1 (.changeThreshold 1) scenarioCfg
    scenarioCfg rfl⟩

/-- C6: every validation error — identity errors (malformed key
material, unloading an unknown identity), owner and threshold errors,
and the encoding preconditions (existing owner, non-existing owner,
threshold limit, same or unsupported fallback handler, same or invalid
master copy, already-updated account) — is raised before any network
call: whenever a command returns an error, the world (account snapshot,
chain balances, registry and network-call count) is unchanged; in
particular, add_owner with an address already in the owner set fails
with ExistingOwnerError and alters nothing, and each listed error kind
is reachable at a concrete input with the world returned untouched. -/
theorem c6_validation_before_network :
    (∀ (env : ChainEnv) (w : World) (c : Command),
      ((runCommand env w c).2).isSome = true → (runCommand env w c).1 = w)
    ∧ (∀ (env : ChainEnv) (w : World) (addr : Address) (t : Option Nat),
      addr ∈ w.cfg.owners →
        runCommand env w (.addOwner addr t) =
          (w, some (.existingOwner addr)))
    ∧ runCommand demoEnv demoWorld (.loadOwner [1, 2, 3]) =
        (demoWorld, some (.identityLoad [1, 2, 3]))
    ∧ runCommand demoEnv demoWorld (.unloadOwner 9) =
        (demoWorld, some (.accountNotLoaded 9))
    ∧ runCommand demoEnv demoWorld (.removeOwner 9 none) =
        (demoWorld, some (.nonExistingOwner 9))
    ∧ runCommand demoEnv demoWorld (.removeOwner 2 none) =
        (demoWorld, some .thresholdLimit)
    ∧ runCommand demoEnv demoWorld (.changeThreshold 3) =
        (demoWorld, some .thresholdLimit)
    ∧ runCommand demoEnv demoWorld (.changeFallbackHandler 5) =
        (demoWorld, some (.sameFallbackHandler 5))
    ∧ runCommand demoEnv demoWorldV0 (.changeFallbackHandler 8) =
        (demoWorldV0, some .fallbackHandlerNotSupported)
    ∧ runCommand demoEnv demoWorld (.changeMasterCopy 6) =
        (demoWorld, some (.sameMasterCopy 6))
    ∧ runCommand demoEnv demoWorld (.changeMasterCopy 9) =
        (demoWorld, some (.invalidMasterCopy 9))
    ∧ runCommand ⟨[6, 7], 1⟩ demoWorld .updateVersion =
        (demoWorld, some .safeAlreadyUpdated) := by
  refine ⟨?_, ?_, by decide, by decide, by decide, by decide, by decide,
    by decide, by decide, by decide, by decide, by decide⟩
  · intro env w c h
    cases c with
    | loadOwner key =>
      simp only [runCommand] at h ⊢
      cases hv : deriveAddress key with
      | none => rfl
      | some addr =>
        rw [hv] at h
        simp at h
    | unloadOwner addr =>
      simp only [runCommand] at h ⊢
      by_cases hmem : addr ∈ w.registry.accounts
      · rw [if_pos hmem] at h
        simp at h
      · rw [if_neg hmem]
    | addOwner addr t =>
      simp only [runCommand] at h ⊢
      cases hv : validate_add_owner w.cfg addr t with
      | some e => rfl
      | none =>
        rw [hv] at h
        simp at h
    | removeOwner addr t =>
      simp only [runCommand] at h ⊢
      cases hv : validate_remove_owner w.cfg addr t with
      | some e => rfl
      | none =>
        rw [hv] at h
        simp at h
    | changeThreshold t =>
      simp only [runCommand] at h ⊢
      cases hv : validate_change_threshold w.cfg t with
      | some e => rfl
      | none =>
        rw [hv] at h
        simp at h
    | changeFallbackHandler addr =>
      simp only [runCommand] at h ⊢
      cases hv : validate_change_fallback_handler w.cfg addr with
      | some e => rfl
      | none =>
        rw [hv] at h
        simp at h
    | changeMasterCopy addr =>
      simp only [runCommand] at h ⊢
      cases hv : validate_change_master_copy env w.cfg addr with
      | some e => rfl
      | none =>
        rw [hv] at h
        simp at h
    | updateVersion =>
      simp only [runCommand] at h ⊢
      cases hv : validate_update_version env w.cfg with
      | some e => rfl
      | none =>
        rw [hv] at h
        simp at h
  · intro env w addr t h
    have hv : validate_add_owner w.cfg addr t =
        some (.existingOwner addr) := by
      simp only [validate_add_owner]
      rw [if_pos h]
    simp only [runCommand, hv]

theorem c6_validation_before_network_witness :
    (1 : Address) ∈ demoWorld.cfg.owners ∧
      runCommand demoEnv demoWorld (.addOwner 1 none) =
        (demoWorld, some (.existingOwner 1)) :=
  ⟨by decide,
    c6_validation_before_network.2.1 demoEnv demoWorld 1 none (by decide)⟩

/-- C7: the first approve-hash call by an owner for a payload hash
succeeds and makes the hash pre-approved for that owner; a repeated call
by the same owner for the same hash fails with HashAlreadyApprovedError;
approvals already recorded are preserved (append-only, no revocation). -/
theorem c7_approve_hash_once (st : ApprovalState) (owner : Address)
    (hash : Bytes) (h : is_hash_pre_approved st owner hash = false) :
    approve_hash st owner hash = .ok ⟨(owner, hash) :: st.approved⟩ ∧
      is_hash_pre_approved ⟨(owner, hash) :: st.approved⟩ owner hash =
        true ∧
      approve_hash ⟨(owner, hash) :: st.approved⟩ owner hash =
        .error (.hashAlreadyApproved hash owner) ∧
      (∀ (o2 : Address) (h2 : Bytes),
        is_hash_pre_approved st o2 h2 = true →
          is_hash_pre_approved ⟨(owner, hash) :: st.approved⟩ o2 h2 =
            true) := by
  have happ : is_hash_pre_approved ⟨(owner, hash) :: st.approved⟩ owner
      hash = true := by
    simp [is_hash_pre_approved]
  refine ⟨?_, happ, ?_, ?_⟩
  · simp only [approve_hash]
    rw [if_neg (by simp [h])]
  · simp only [approve_hash]
    rw [if_pos happ]
  · intro o2 h2 hmem
    simp only [is_hash_pre_approved] at hmem ⊢
    simp at hmem ⊢
    exact Or.inr hmem

theorem c7_approve_hash_once_witness :
    is_hash_pre_approved ⟨[]⟩ 1 [2] = false ∧
      (approve_hash ⟨[]⟩ 1 [2] = .ok ⟨[(1, [2])]⟩ ∧
        is_hash_pre_approved ⟨[(1, [2])]⟩ 1 [2] = true ∧
        approve_hash ⟨[(1, [2])]⟩ 1 [2] =
          .error (.hashAlreadyApproved [2] 1) ∧
        (∀ (o2 : Address) (h2 : Bytes),
          is_hash_pre_approved ⟨[]⟩ o2 h2 = true →
            is_hash_pre_approved ⟨[(1, [2])]⟩ o2 h2 = true)) :=
  ⟨by decide, c7_approve_hash_once ⟨[]⟩ 1 [2] (by decide)⟩

/-- C8: a newly loaded identity becomes the default sender exactly when no
default sender was previously set and its account balance is non-zero;
with a zero balance the default sender stays undefined, an existing
default sender is never displaced, and an operation that needs a sender
fails with SenderRequiredError when none is set. -/
theorem c8_default_sender_rules :
    (∀ (reg : SignerRegistry) (addr : Address) (bal : Nat),
      reg.default_sender = none → bal ≠ 0 →
        (load_cli_owner reg addr bal).default_sender = some addr)
    ∧ (∀ (reg : SignerRegistry) (addr : Address),
      reg.default_sender = none →
        (load_cli_owner reg addr 0).default_sender = none)
    ∧ (∀ (reg : SignerRegistry) (addr : Address) (bal : Nat)
        (s : Address), reg.default_sender = some s →
        (load_cli_owner reg addr bal).default_sender = some s)
    ∧ (∀ reg : SignerRegistry, reg.default_sender = none →
        require_sender reg = .error .senderRequired) := by
  refine ⟨?_, ?_, ?_, ?_⟩
  · intro reg addr bal h hb
    simp [load_cli_owner, h, hb]
  · intro reg addr h
    simp [load_cli_owner, h]
  · intro reg addr bal s h
    simp [load_cli_owner, h]
  · intro reg h
    simp [require_sender, h]

theorem c8_default_sender_rules_witness :
    (SignerRegistry.default_sender ⟨[], none⟩ = none ∧ (5 : Nat) ≠ 0) ∧
      (load_cli_owner ⟨[], none⟩ 7 5).default_sender = some 7 :=
  ⟨⟨rfl, by decide⟩,
    c8_default_sender_rules.1 ⟨[], none⟩ 7 5 rfl (by decide)⟩

/-- C9 counterexample: a NetworkError raised inside a wrapped handler has
no matching except clause at the dispatcher boundary, so it propagates
out of process_command unchanged — refuting the claim that every error
kind of the taxonomy is caught there. -/
theorem c9_counterexample_network_error_propagates :
    safe_exception (α := Unit) (.error (.networkError "mainnet")) =
      .error (.networkError "mainnet") := rfl

/-- C9 (amended): every error kind with a matching except clause in the
dispatcher boundary catch list is caught there, rendered, and does not
propagate out of process_command; the rendering carries the context values
of the error (shortfall count, offending address). -/
theorem c9_boundary_catches_listed_errors :
    (∀ (α : Type) (e : SafeError), catchableError e = true →
      safe_exception (α := α) (.error e) =
        .ok (none, (renderError e).getD []))
    ∧ (∀ n : Nat, renderError (.notEnoughSignatures n) =
        some ["Cannot find enough owners to sign. " ++ toString n ++
          " missing"])
    ∧ (∀ a : Address, renderError (.existingOwner a) =
        some ["Owner " ++ toString a ++
          " is already an owner of the Safe"]) := by
  refine ⟨?_, fun n => rfl, fun a => rfl⟩
  intro α e h
  simp only [catchableError] at h
  cases hr : renderError e with
  | none =>
    rw [hr] at h
    simp at h
  | some lines =>
    simp only [safe_exception, hr]
    rfl

theorem c9_boundary_catches_listed_errors_witness :
    catchableError .senderRequired = true ∧
      safe_exception (α := Unit) (.error .senderRequired) =
        .ok (none, (renderError .senderRequired).getD []) :=
  ⟨rfl, c9_boundary_catches_listed_errors.1 Unit .senderRequired rfl⟩

/-- C10: destination precedence for the send commands — the tx-service
flag always wins (TRANSACTION_SERVICE even when the relay-service flag is
also set), otherwise the relay-service flag selects RELAY_SERVICE, and
with neither flag the destination is direct chain broadcast. -/
theorem c10_destination_precedence :
    (∀ a : SendArgs, a.tx_service = true →
      parser_to_transaction_destination a = .transaction_service)
    ∧ (∀ a : SendArgs, a.tx_service = false → a.relay_service = true →
      parser_to_transaction_destination a = .relay_service)
    ∧ (∀ a : SendArgs, a.tx_service = false → a.relay_service = false →
      parser_to_transaction_destination a = .blockchain)
    ∧ parser_to_transaction_destination ⟨true, true⟩ =
        .transaction_service := by
  refine ⟨?_, ?_, ?_, by decide⟩
  · intro a h
    simp [parser_to_transaction_destination, h]
  · intro a h1 h2
    simp [parser_to_transaction_destination, h1, h2]
  · intro a h1 h2
    simp [parser_to_transaction_destination, h1, h2]

theorem c10_destination_precedence_witness :
    SendArgs.tx_service ⟨true, true⟩ = true ∧
      parser_to_transaction_destination ⟨true, true⟩ =
        .transaction_service :=
  ⟨rfl, c10_destination_precedence.1 ⟨true, true⟩ rfl⟩
